import Mathlib

/-!
Verification of `main.py` from the `irregular-temporal-gnn` repository.

The file embeds the configuration handling (`get_config`), the model
registry (`MODELS`), the training loop of `main` (early stopping and
best-checkpoint tracking), and the post-loop save/plot sequence, and
proves the specified properties about them.

Conventions of the embedding:
* Python dicts holding the run configuration become association lists
  `List (String × Value)` with first-match lookup (Python dicts have
  unique keys, so first match equals the dict value).
* `argparse` option values are ints, floats, strings or `None`; floats
  are embedded as rationals.
* The mappings `constants.OPTIMIZERS`, `constants.LOSSES` and
  `constants.GNN_LAYERS` live outside `main.py`; only membership in
  their key sets matters, so they are parameters (lists of known names).
* Validation metrics (floats) are embedded as an arbitrary linear order
  `α`, with `numpy.inf` as the top element of `WithTop α`; exceptional
  float values (inf/NaN produced by a diverging run) are outside the
  embedding.
-/

/-- A Python value occurring in the run configuration: int, float
(embedded as a rational), string, or `None`. -/
inductive Value where
  | vInt : Int → Value
  | vFloat : ℚ → Value
  | vStr : String → Value
  | vNone : Value
deriving DecidableEq, Repr

/-- A Python dict of configuration options, as an association list. -/
abbrev Dict := List (String × Value)

/-- Dict lookup, first match (Python dicts have unique keys). -/
def lookupKey : Dict → String → Option Value
  | [], _ => none
  | (k', v) :: rest, k => if k' = k then some v else lookupKey rest k

/-- The keys of a dict, in insertion order. -/
def dictKeys (d : Dict) : List String := d.map Prod.fst

/-- Python `d[k] = v`: replace the value at `k` if the key is present,
append the pair otherwise. -/
def setKey (d : Dict) (k : String) (v : Value) : Dict :=
  if k ∈ dictKeys d then
    d.map (fun p => if p.1 = k then (k, v) else p)
  else
    d ++ [(k, v)]

/-- Python `base.update(other)`: set every pair of `other` in `base`,
in order. -/
def dictUpdate (base other : Dict) : Dict :=
  other.foldl (fun acc p => setKey acc p.1 p.2) base

/-- The option names defined by the `argparse` parser in `get_config`
(the keys of `vars(args)`), in declaration order. -/
def ARG_KEYS : List String :=
  ["config", "model", "dataset", "seed", "optimizer", "init_points",
   "test", "gru_layers", "decay_type", "time_input", "mask_input",
   "hidden_dim", "n_fc", "pred_gnn", "gru_gnn", "gnn_type",
   "node_params", "epochs", "val_interval", "patience", "loss", "lr",
   "l2_reg", "batch_size", "learn_init_state", "state_updates",
   "plot_pred", "max_nodes_plot", "save_pdf"]

/-- `vars(args)` when every option keeps its `argparse` default. -/
def defaultArgs : Dict :=
  [("config", .vNone), ("model", .vStr "gru_graph"),
   ("dataset", .vStr "la_node_0.25"), ("seed", .vInt 42),
   ("optimizer", .vStr "adam"), ("init_points", .vInt 5),
   ("test", .vInt 0), ("gru_layers", .vInt 1),
   ("decay_type", .vStr "dynamic"), ("time_input", .vInt 1),
   ("mask_input", .vInt 0), ("hidden_dim", .vInt 32),
   ("n_fc", .vInt 2), ("pred_gnn", .vInt 1), ("gru_gnn", .vInt 1),
   ("gnn_type", .vStr "graphconv"), ("node_params", .vInt 1),
   ("epochs", .vInt 10), ("val_interval", .vInt 1),
   ("patience", .vInt 10), ("loss", .vStr "mse"),
   ("lr", .vFloat (1/1000)), ("l2_reg", .vFloat 0),
   ("batch_size", .vInt 32), ("learn_init_state", .vInt 1),
   ("state_updates", .vStr "obs"), ("plot_pred", .vInt 3),
   ("max_nodes_plot", .vInt 5), ("save_pdf", .vInt 0)]

/-- The three model classes imported by `main.py`
(`models.gru_model.GRUModel` etc.; their internals are outside the
embedding, only their identity matters). -/
inductive ModelClass where
  | GRUModel
  | GRUNodeModel
  | GRUGraphModel
deriving DecidableEq, Repr

/-- The `MODELS` name-to-class mapping of `main.py`. -/
def MODELS : List (String × ModelClass) :=
  [("gru", .GRUModel),        -- Ignore graph structure
   ("gru_node", .GRUNodeModel), -- Treat each node independently
   ("gru_graph", .GRUGraphModel)] -- Utilizes graph structure

/-- Python `config[key] in mapping`: the value is a string belonging to
the mapping's key set (a non-string value is never a key of the
name-to-class mappings; a missing key would raise, and is also `false`
here since every `false` branch leads to an error). -/
def strKnown (c : Dict) (key : String) (known : List String) : Bool :=
  match lookupKey c key with
  | some (.vStr s) => known.contains s
  | _ => false

/-- Python `config["init_points"] > 0`: defined (and true) only for a
numeric value that is positive; a non-numeric value raises `TypeError`,
which the surrounding assert block turns into an error anyway. -/
def initPointsOK (c : Dict) : Bool :=
  match lookupKey c "init_points" with
  | some (.vInt n) => 0 < n
  | some (.vFloat q) => 0 < q
  | _ => false

/-- Python `x <= y` on configuration values: numeric comparison between
numbers, lexicographic between strings, `TypeError` (here: `none`)
otherwise. -/
def pyLe : Value → Value → Option Bool
  | .vInt a, .vInt b => some (a ≤ b)
  | .vInt a, .vFloat b => some ((a : ℚ) ≤ b)
  | .vFloat a, .vInt b => some (a ≤ (b : ℚ))
  | .vFloat a, .vFloat b => some (a ≤ b)
  | .vStr a, .vStr b => some (a ≤ b)
  | _, _ => none

/-- Python `config["plot_pred"] <= config["batch_size"]`. -/
def plotPredOK (c : Dict) : Bool :=
  match lookupKey c "plot_pred", lookupKey c "batch_size" with
  | some a, some b => (pyLe a b).getD false
  | _, _ => false

/-- The names of the known models, i.e. the keys of `MODELS`. -/
def MODEL_NAMES : List String := MODELS.map Prod.fst

/-- `config["model"] in MODELS`. -/
def modelOK (c : Dict) : Bool := strKnown c "model" MODEL_NAMES

/-- `config["optimizer"] in constants.OPTIMIZERS`, with the key set of
`constants.OPTIMIZERS` (defined outside `main.py`) as a parameter. -/
def optimizerOK (optimizers : List String) (c : Dict) : Bool :=
  strKnown c "optimizer" optimizers

/-- `config["loss"] in constants.LOSSES`. -/
def lossOK (losses : List String) (c : Dict) : Bool :=
  strKnown c "loss" losses

/-- `config["gnn_type"] in constants.GNN_LAYERS`. -/
def gnnTypeOK (gnnLayers : List String) (c : Dict) : Bool :=
  strKnown c "gnn_type" gnnLayers

/-- The block of `assert` statements at the end of `get_config`
(main.py lines 113-121), run in source order on the merged config;
the first failing assert raises with its message. -/
def configAsserts (optimizers losses gnnLayers : List String)
    (c : Dict) : Except String Dict :=
  if !(modelOK c) then .error "Unknown model" else
  if !(optimizerOK optimizers c) then .error "Unknown optimizer" else
  if !(lossOK losses c) then .error "Unknown loss" else
  if !(gnnTypeOK gnnLayers c) then .error "Unknown gnn_type" else
  if !(initPointsOK c) then
    .error "Need to have positive number of init points" else
  if !(plotPredOK c) then
    .error "Can not make more plots than batch size" else
  .ok c

/-- The keys of the config file that are not argparse option names
(`set(config_from_file.keys()).difference(set(config.keys()))`),
in file order. -/
def unknownOptions (args file : Dict) : List String :=
  (dictKeys file).filter (fun k => k ∉ dictKeys args)

/-- The assertion message listing every unknown config-file option. -/
def unknownError (unknown : List String) : String :=
  String.intercalate "\n"
    (unknown.map (fun opt => "Unknown option in config file: " ++ opt))

/-- `get_config` of `main.py` after argument parsing: `args` is
`vars(args)`, `fileCfg` is the parsed JSON config file when `--config`
was given. Reads the file config, rejects unknown keys, merges it over
the command-line config, then runs the assert block. -/
def get_config (optimizers losses gnnLayers : List String)
    (args : Dict) (fileCfg : Option Dict) : Except String Dict :=
  match fileCfg with
  | none => configAsserts optimizers losses gnnLayers args
  | some file =>
      let unknown := unknownOptions args file
      if unknown.isEmpty then
        configAsserts optimizers losses gnnLayers (dictUpdate args file)
      else
        .error (unknownError unknown)

/-- The configuration after the optional file merge, i.e. the dict the
assert block of `get_config` sees. -/
def mergedConfig (args : Dict) (fileCfg : Option Dict) : Dict :=
  match fileCfg with
  | none => args
  | some file => dictUpdate args file

/-- Whether a computation of `get_config` raised (an `assert` failure
or similar). -/
def isError : Except String Dict → Bool
  | .error _ => true
  | .ok _ => false

/-- `MODELS[config["model"]]`: the model class `main` instantiates for
an accepted configuration. -/
def chooseModel (c : Dict) : Option ModelClass :=
  match lookupKey c "model" with
  | some (.vStr s) => MODELS.lookup s
  | _ => none

/-!
## The training loop of `main` (main.py lines 170-204)

`α` is the (linearly ordered) type of validation-metric values, `P` the
type of model parameter snapshots (`model.state_dict()` deep copies),
`M` the type of the `log_metrics` dicts. Training is sequential and
deterministic, so the state dict after the training step of epoch `i`
and the validation metrics computed at epoch `i` are abstract functions
of `i`.
-/

/-- The inputs of the training loop: the relevant config entries and
the abstract per-epoch results of `train.train_epoch` /
`train.val_epoch`. `val i` is the `val_mse` entry of the metrics at
epoch `i`, `params i` is `copy.deepcopy(model.state_dict())` after the
training step of epoch `i`, `metrics i` the `log_metrics` dict. -/
structure LoopCfg (α P M : Type) where
  epochs : Nat
  val_interval : Nat
  patience : Int
  val : Nat → α
  params : Nat → P
  metrics : Nat → M

/-- The mutable state of the training loop: `best_val_loss` starts at
`np.inf` (the top of `WithTop α`), `best_val_epoch` at `-1`,
`best_val_metrics` and `best_params` at `None`. -/
structure LState (α P M : Type) where
  best_val_loss : WithTop α
  best_val_epoch : Int
  best_val_metrics : Option M
  best_params : Option P
deriving DecidableEq, Repr

/-- The initial loop state of `main` (lines 170-173). -/
def initState (α P M : Type) : LState α P M :=
  { best_val_loss := ⊤, best_val_epoch := -1,
    best_val_metrics := none, best_params := none }

/-- `epoch_i % config["val_interval"] == 0`: whether epoch `i` is
validated. -/
def validAt (cfg : LoopCfg α P M) (i : Nat) : Prop :=
  i % cfg.val_interval = 0

instance (cfg : LoopCfg α P M) (i : Nat) : Decidable (validAt cfg i) :=
  inferInstanceAs (Decidable (_ = _))

/-- The body of one loop iteration at epoch `i` (lines 176-204):
train, then on a validation epoch update the best-run bookkeeping when
`val_mse` strictly improved and evaluate the early-stopping test on the
updated state. Returns the new state and whether `break` fires. -/
def epochStep [LinearOrder α] (cfg : LoopCfg α P M) (i : Nat)
    (s : LState α P M) : LState α P M × Bool :=
  if i % cfg.val_interval = 0 then
    let v := cfg.val i
    let s' :=
      if (v : WithTop α) < s.best_val_loss then
        { best_val_loss := (v : WithTop α), best_val_epoch := (i : Int),
          best_val_metrics := some (cfg.metrics i),
          best_params := some (cfg.params i) }
      else s
    -- `(epoch_i - best_val_epoch)/config["val_interval"] >= patience`
    -- (Python true division, embedded exactly in ℚ)
    (s', decide ((cfg.patience : ℚ) ≤
      ((i : ℚ) - (s'.best_val_epoch : ℚ)) / (cfg.val_interval : ℚ)))
  else
    (s, false)

/-- Run the loop from epoch `start` for `fuel` more epochs, stopping at
the first `break`; returns the final state and the epoch the `break`
fired at, if any. -/
def runFrom [LinearOrder α] (cfg : LoopCfg α P M) :
    Nat → Nat → LState α P M → LState α P M × Option Nat
  | _, 0, s => (s, none)
  | start, fuel + 1, s =>
      let (s', brk) := epochStep cfg start s
      if brk then (s', some start)
      else runFrom cfg (start + 1) fuel s'

/-- The whole training loop `for epoch_i in range(1, epochs+1)`. -/
def runLoop [LinearOrder α] (cfg : LoopCfg α P M) :
    LState α P M × Option Nat :=
  runFrom cfg 1 cfg.epochs (initState α P M)

/-- The loop state after the iterations for epochs `1..i` ignoring the
`break` (the reference fold the loop is proved against; on the epochs
the loop actually processes it coincides with the loop state). -/
def bestState [LinearOrder α] (cfg : LoopCfg α P M) : Nat → LState α P M
  | 0 => initState α P M
  | i + 1 =>
      let s := bestState cfg i
      if (i + 1) % cfg.val_interval = 0 ∧
          ((cfg.val (i + 1) : WithTop α) < s.best_val_loss) then
        { best_val_loss := (cfg.val (i + 1) : WithTop α),
          best_val_epoch := ((i + 1 : Nat) : Int),
          best_val_metrics := some (cfg.metrics (i + 1)),
          best_params := some (cfg.params (i + 1)) }
      else s

/-- The early-stopping condition as evaluated at a validated epoch `i`:
`(epoch_i - best_val_epoch)/val_interval >= patience`, with
`best_val_epoch` the most recent validated epoch up to `i` that
strictly lowered the best validation MSE (`-1` if none). -/
def brkCond [LinearOrder α] (cfg : LoopCfg α P M) (i : Nat) : Prop :=
  (cfg.patience : ℚ) ≤
    ((i : ℚ) - (((bestState cfg i).best_val_epoch : Int) : ℚ)) /
      (cfg.val_interval : ℚ)

instance [LinearOrder α] (cfg : LoopCfg α P M) (i : Nat) :
    Decidable (brkCond cfg i) :=
  inferInstanceAs (Decidable (_ ≤ _))

/-- The epoch at which the first `break` fires: the first epoch in
`start, start+1, ..., start+fuel-1` that is validated and satisfies the
early-stopping condition. -/
def firstBreak [LinearOrder α] (cfg : LoopCfg α P M)
    (start fuel : Nat) : Option Nat :=
  (List.range' start fuel).find?
    (fun i => decide (validAt cfg i) && decide (brkCond cfg i))

/-- The last epoch the loop body runs for: the break epoch when the
loop stops early, `config["epochs"]` otherwise. -/
def lastEpoch [LinearOrder α] (cfg : LoopCfg α P M) : Nat :=
  match (runLoop cfg).2 with
  | some e => e
  | none => cfg.epochs

/-!
## The save/plot sequence of `main` after the training loop
(main.py lines 176-229)

Externally visible actions of `main` from the start of the training
loop onward, in program order, as an event trace. `runDir` stands for
`wandb.run.dir` and `paramFileName` for `constants.PARAM_FILE_NAME`
(a fixed constant defined outside `main.py`).
-/

/-- An externally visible action of `main`. -/
inductive Event (P : Type) where
  | train (epoch : Nat)
  | wandbLog (epoch : Nat)
  | saveCheckpoint (path : String) (params : Option P)
  | loadState (params : Option P)
  | savePdfFig (path : String)
  | logImage (figIdx : Nat)
  | summaryUpdate
deriving DecidableEq, Repr

/-- Whether an event is the `torch.save` of the checkpoint. -/
def isSaveCheckpoint : Event P → Bool
  | .saveCheckpoint _ _ => true
  | _ => false

/-- Whether an event is a training step of the loop. -/
def isTrain : Event P → Bool
  | .train _ => true
  | _ => false

/-- `os.path.join` for a directory and a plain file name. -/
def pathJoin (dir name : String) : String := dir ++ "/" ++ name

/-- The events of the training loop body, for the epochs it actually
processes: a training step each epoch, and a `wandb.log` on validated
epochs. -/
def loopEvents [LinearOrder α] (cfg : LoopCfg α P M) : List (Event P) :=
  (List.range' 1 (lastEpoch cfg)).flatMap (fun i =>
    Event.train i ::
      (if i % cfg.val_interval = 0 then [Event.wandbLog i] else []))

/-- The events of `main` from the training loop onward (lines 176-229):
the loop, then the single `torch.save` of `best_params` to
`os.path.join(wandb.run.dir, constants.PARAM_FILE_NAME)`, the
`load_state_dict` restore, the prediction plots (a pdf per figure only
when `save_pdf` is set, a `wandb.log` image always), and the summary
update. -/
def mainEvents [LinearOrder α] (cfg : LoopCfg α P M)
    (runDir paramFileName : String) (plotPred : Nat)
    (savePdfFlag : Bool) : List (Event P) :=
  loopEvents cfg ++
    (Event.saveCheckpoint (pathJoin runDir paramFileName)
        (runLoop cfg).1.best_params ::
      Event.loadState (runLoop cfg).1.best_params ::
      ((List.range plotPred).flatMap (fun i =>
        (if savePdfFlag then
          [Event.savePdfFig
            (pathJoin runDir ("val_pred_" ++ toString i ++ ".pdf"))]
        else []) ++ [Event.logImage i]) ++
       [Event.summaryUpdate]))

/-- A concrete run: 5 epochs, validation every epoch, patience 0, so
the early-stopping break fires at the first validation. -/
def cfgBreak : LoopCfg Int Nat Unit :=
  { epochs := 5, val_interval := 1, patience := 0,
    val := fun i => 10 - (i : Int), params := fun i => i,
    metrics := fun _ => () }

/-- A concrete run: 2 epochs, validation every epoch, patience 10, so
the loop runs to completion with strictly improving validation MSE. -/
def cfgRun : LoopCfg Int Nat Unit :=
  { epochs := 2, val_interval := 1, patience := 10,
    val := fun i => 10 - (i : Int), params := fun i => i,
    metrics := fun _ => () }

/-!
## Relating the loop to its reference fold
-/

/-- One loop iteration entered with the reference state produces the
next reference state, breaking exactly on a validated epoch satisfying
the early-stopping condition. -/
theorem epochStep_bestState [LinearOrder α] (cfg : LoopCfg α P M)
    (i : Nat) :
    epochStep cfg (i + 1) (bestState cfg i) =
      (bestState cfg (i + 1),
       decide (validAt cfg (i + 1)) && decide (brkCond cfg (i + 1))) := by
  by_cases hv : (i + 1) % cfg.val_interval = 0
  · by_cases himp :
        ((cfg.val (i + 1) : WithTop α) < (bestState cfg i).best_val_loss)
    · simp only [epochStep, bestState, brkCond, validAt, hv, himp]
      simp [hv, himp]
    · simp only [epochStep, bestState, brkCond, validAt, hv, himp]
      simp [hv, himp]
  · simp [epochStep, bestState, brkCond, validAt, hv]

/-- Running the loop from epoch `i + 1` out of the reference state at
`i` ends at the first break epoch (with the reference state there), or
runs out of epochs. -/
theorem runFrom_bestState [LinearOrder α] (cfg : LoopCfg α P M) :
    ∀ fuel i, runFrom cfg (i + 1) fuel (bestState cfg i) =
      (match firstBreak cfg (i + 1) fuel with
       | some e => (bestState cfg e, some e)
       | none => (bestState cfg (i + fuel), none)) := by
  intro fuel
  induction fuel with
  | zero => intro i; simp [runFrom, firstBreak]
  | succ fuel ih =>
      intro i
      have hstep := epochStep_bestState cfg i
      have hrange : List.range' (i + 1) (fuel + 1) =
          (i + 1) :: List.range' (i + 2) fuel := by
        simpa using List.range'_succ (i + 1) fuel 1
      by_cases hb :
          (decide (validAt cfg (i + 1)) && decide (brkCond cfg (i + 1)))
            = true
      · have hfind : firstBreak cfg (i + 1) (fuel + 1) = some (i + 1) := by
          unfold firstBreak
          rw [hrange]
          exact List.find?_cons_of_pos _ hb
        simp only [runFrom, hstep, hb, if_pos, hfind]
      · have hb' : (decide (validAt cfg (i + 1)) &&
            decide (brkCond cfg (i + 1))) = false := by
          simpa using hb
        have hfind : firstBreak cfg (i + 1) (fuel + 1) =
            firstBreak cfg (i + 2) fuel := by
          unfold firstBreak
          rw [hrange]
          exact List.find?_cons_of_neg _ (by simp [hb'])
        have hrec := ih (i + 1)
        rw [show i + 1 + 1 = i + 2 from rfl] at hrec
        simp only [runFrom, hstep, hb', if_neg, Bool.false_eq_true,
          not_false_iff, hfind]
        rw [hrec]
        have harith : i + 1 + fuel = i + (fuel + 1) := by omega
        rw [harith]

/-- The training loop equals the first-break characterization over the
reference fold. -/
theorem runLoop_eq [LinearOrder α] (cfg : LoopCfg α P M) :
    runLoop cfg =
      (match firstBreak cfg 1 cfg.epochs with
       | some e => (bestState cfg e, some e)
       | none => (bestState cfg cfg.epochs, none)) := by
  have := runFrom_bestState cfg cfg.epochs 0
  simpa [runLoop, bestState, initState] using this

/-- `find?` over a unit-step range finds exactly the least element of
the range satisfying the predicate. -/
theorem find?_range'_eq_some (p : Nat → Bool) :
    ∀ fuel start e, (List.range' start fuel).find? p = some e ↔
      (start ≤ e ∧ e < start + fuel ∧ p e = true ∧
       ∀ j, start ≤ j → j < e → p j = false) := by
  intro fuel
  induction fuel with
  | zero =>
      intro start e
      simp only [List.range', List.find?]
      constructor
      · intro h; cases h
      · rintro ⟨h1, h2, -⟩; omega
  | succ fuel ih =>
      intro start e
      have hrange : List.range' start (fuel + 1) =
          start :: List.range' (start + 1) fuel := by
        simpa using List.range'_succ start fuel 1
      rw [hrange]
      by_cases hp : p start = true
      · rw [List.find?_cons_of_pos _ hp]
        constructor
        · rintro ⟨rfl⟩
          exact ⟨le_refl _, by omega, hp, fun j h1 h2 => by omega⟩
        · rintro ⟨h1, h2, h3, h4⟩
          by_cases he : e = start
          · rw [he]
          · have : start < e := by omega
            have := h4 start (le_refl _) this
            rw [hp] at this; cases this
      · rw [List.find?_cons_of_neg _ hp]
        rw [ih (start + 1) e]
        simp only [Bool.not_eq_true] at hp
        constructor
        · rintro ⟨h1, h2, h3, h4⟩
          refine ⟨by omega, by omega, h3, fun j hj1 hj2 => ?_⟩
          by_cases hj : j = start
          · rw [hj]; exact hp
          · exact h4 j (by omega) hj2
        · rintro ⟨h1, h2, h3, h4⟩
          have hne : e ≠ start := by
            intro he; rw [he] at h3; rw [hp] at h3; cases h3
          exact ⟨by omega, by omega, h3,
            fun j hj1 hj2 => h4 j (by omega) hj2⟩

/-- The second component of the training loop is exactly the first
validated epoch satisfying the early-stopping condition. -/
theorem runLoop_snd [LinearOrder α] (cfg : LoopCfg α P M) :
    (runLoop cfg).2 = firstBreak cfg 1 cfg.epochs := by
  rw [runLoop_eq]
  cases firstBreak cfg 1 cfg.epochs <;> rfl

/-- The final loop state is the reference state at the last processed
epoch. -/
theorem runLoop_fst [LinearOrder α] (cfg : LoopCfg α P M) :
    (runLoop cfg).1 = bestState cfg (lastEpoch cfg) := by
  unfold lastEpoch
  rw [runLoop_snd, runLoop_eq]
  cases firstBreak cfg 1 cfg.epochs <;> rfl

/-- The complete behaviour of the best-run bookkeeping after epochs
`1..E`: either no epoch in `1..E` is validated and the state still
holds the initial sentinel values, or the state holds the value, epoch,
metrics and parameter snapshot of the earliest validated epoch
attaining the minimum `val_mse` over the validated epochs of `1..E`. -/
theorem bestState_spec [LinearOrder α] (cfg : LoopCfg α P M) :
    ∀ E : Nat,
      ((∀ j, 1 ≤ j → j ≤ E → ¬ validAt cfg j) ∧
        bestState cfg E = initState α P M) ∨
      (∃ e, 1 ≤ e ∧ e ≤ E ∧ validAt cfg e ∧
        bestState cfg E =
          { best_val_loss := (cfg.val e : WithTop α),
            best_val_epoch := (e : Int),
            best_val_metrics := some (cfg.metrics e),
            best_params := some (cfg.params e) } ∧
        (∀ j, 1 ≤ j → j ≤ E → validAt cfg j → cfg.val e ≤ cfg.val j) ∧
        (∀ j, 1 ≤ j → j < e → validAt cfg j → cfg.val e < cfg.val j)) := by
  intro E
  induction E with
  | zero =>
      left
      exact ⟨fun j h1 h2 => by omega, rfl⟩
  | succ E ih =>
      by_cases hv : validAt cfg (E + 1)
      · have hv' : (E + 1) % cfg.val_interval = 0 := hv
        rcases ih with ⟨hnone, hstate⟩ | ⟨e, he1, he2, hev, hstate, hmin, hstrict⟩
        · -- first validated epoch: `val < ⊤` always holds
          right
          refine ⟨E + 1, by omega, le_refl _, hv, ?_, ?_, ?_⟩
          · simp only [bestState, hstate, initState, hv']
            simp
          · intro j h1 h2 hj
            rcases Nat.lt_or_ge j (E + 1) with hlt | hge
            · exact absurd hj (hnone j h1 (by omega))
            · have : j = E + 1 := by omega
              rw [this]
          · intro j h1 h2 hj
            exact absurd hj (hnone j h1 (by omega))
        · by_cases himp : cfg.val (E + 1) < cfg.val e
          · -- strict improvement: the state moves to epoch `E + 1`
            right
            refine ⟨E + 1, by omega, le_refl _, hv, ?_, ?_, ?_⟩
            · simp only [bestState, hstate]
              rw [if_pos ⟨hv', WithTop.coe_lt_coe.mpr himp⟩]
            · intro j h1 h2 hj
              rcases Nat.lt_or_ge j (E + 1) with hlt | hge
              · exact le_of_lt (lt_of_lt_of_le himp (hmin j h1 (by omega) hj))
              · have : j = E + 1 := by omega
                rw [this]
            · intro j h1 h2 hj
              exact lt_of_lt_of_le himp (hmin j h1 (by omega) hj)
          · -- no improvement: the state is unchanged
            right
            have hkeep : bestState cfg (E + 1) = bestState cfg E := by
              simp only [bestState]
              rw [if_neg]
              rintro ⟨-, hlt⟩
              rw [hstate] at hlt
              have hlt' : (cfg.val (E + 1) : WithTop α) <
                  (cfg.val e : WithTop α) := hlt
              exact himp (WithTop.coe_lt_coe.mp hlt')
            refine ⟨e, he1, by omega, hev, hkeep ▸ hstate, ?_, hstrict⟩
            intro j h1 h2 hj
            rcases Nat.lt_or_ge j (E + 1) with hlt | hge
            · exact hmin j h1 (by omega) hj
            · have : j = E + 1 := by omega
              rw [this]
              exact le_of_not_lt himp
      · have hkeep : bestState cfg (E + 1) = bestState cfg E := by
          simp only [bestState]
          rw [if_neg]
          rintro ⟨h, -⟩
          exact hv h
        rcases ih with ⟨hnone, hstate⟩ | ⟨e, he1, he2, hev, hstate, hmin, hstrict⟩
        · left
          refine ⟨fun j h1 h2 => ?_, hkeep ▸ hstate⟩
          rcases Nat.lt_or_ge j (E + 1) with hlt | hge
          · exact hnone j h1 (by omega)
          · have : j = E + 1 := by omega
            rw [this]; exact hv
        · right
          refine ⟨e, he1, by omega, hev, hkeep ▸ hstate, ?_, hstrict⟩
          intro j h1 h2 hj
          rcases Nat.lt_or_ge j (E + 1) with hlt | hge
          · exact hmin j h1 (by omega) hj
          · have : j = E + 1 := by omega
            rw [this] at hj
            exact absurd hj hv

/-- For a positive `val_interval`, the early-stopping condition
(Python true division, in ℚ) is the integer inequality
`patience * val_interval ≤ epoch_i - best_val_epoch`. -/
theorem brkCond_iff_int [LinearOrder α] (cfg : LoopCfg α P M) (i : Nat)
    (hvi : 1 ≤ cfg.val_interval) :
    brkCond cfg i ↔
      cfg.patience * (cfg.val_interval : Int) ≤
        (i : Int) - (bestState cfg i).best_val_epoch := by
  unfold brkCond
  have hpos : (0 : ℚ) < (cfg.val_interval : ℚ) := by
    exact_mod_cast Nat.lt_of_lt_of_le Nat.zero_lt_one hvi
  rw [le_div_iff₀ hpos]
  constructor
  · intro h; exact_mod_cast h
  · intro h; exact_mod_cast h

/-- The break predicate of the loop, as a Prop. -/
theorem break_pred_true_iff [LinearOrder α] (cfg : LoopCfg α P M)
    (j : Nat) :
    ((fun i => decide (validAt cfg i) && decide (brkCond cfg i)) j
      = true) ↔ (validAt cfg j ∧ brkCond cfg j) := by
  simp

/-- The negation of the break predicate, as a Prop. -/
theorem break_pred_false_iff [LinearOrder α] (cfg : LoopCfg α P M)
    (j : Nat) :
    ((fun i => decide (validAt cfg i) && decide (brkCond cfg i)) j
      = false) ↔ ¬ (validAt cfg j ∧ brkCond cfg j) := by
  rw [Bool.eq_false_iff]
  exact not_congr (break_pred_true_iff cfg j)

/-- The loop never runs past `config["epochs"]`. -/
theorem lastEpoch_le [LinearOrder α] (cfg : LoopCfg α P M) :
    lastEpoch cfg ≤ cfg.epochs := by
  unfold lastEpoch
  rcases h : (runLoop cfg).2 with - | e
  · exact le_refl _
  · show e ≤ cfg.epochs
    rw [runLoop_snd] at h
    unfold firstBreak at h
    rw [find?_range'_eq_some] at h
    omega

/-- When at least one validation fits into the epoch budget, the last
processed epoch is at least `val_interval` (a break can only fire at a
validated epoch, and every validated epoch is `≥ val_interval`). -/
theorem val_interval_le_lastEpoch [LinearOrder α] (cfg : LoopCfg α P M)
    (hvi : 1 ≤ cfg.val_interval) (hval : cfg.val_interval ≤ cfg.epochs) :
    cfg.val_interval ≤ lastEpoch cfg := by
  unfold lastEpoch
  rcases h : (runLoop cfg).2 with - | e
  · exact hval
  · show cfg.val_interval ≤ e
    rw [runLoop_snd] at h
    unfold firstBreak at h
    rw [find?_range'_eq_some] at h
    obtain ⟨h1, -, h3, -⟩ := h
    rw [break_pred_true_iff] at h3
    exact Nat.le_of_dvd (by omega)
      (Nat.dvd_of_mod_eq_zero h3.1)

/-- Claim C1: the training loop halts with a `break` exactly at the
first validated epoch `e ≤ epochs` for which
`(e - best_val_epoch)/val_interval >= patience` holds, where
`best_val_epoch` is the most recent validated epoch that strictly
lowered the best validation MSE (initially `-1`); no earlier validated
epoch satisfies the condition. (`val_interval ≥ 1`, as a zero value
would raise `ZeroDivisionError` in the source on the first epoch.) -/
theorem early_stopping_break_iff [LinearOrder α] (cfg : LoopCfg α P M)
    (hvi : 1 ≤ cfg.val_interval) (e : Nat) :
    (runLoop cfg).2 = some e ↔
      (1 ≤ e ∧ e ≤ cfg.epochs ∧ validAt cfg e ∧ brkCond cfg e ∧
       ∀ j, 1 ≤ j → j < e → validAt cfg j → ¬ brkCond cfg j) := by
  rw [runLoop_snd]
  unfold firstBreak
  rw [find?_range'_eq_some]
  constructor
  · rintro ⟨h1, h2, h3, h4⟩
    rw [break_pred_true_iff] at h3
    refine ⟨h1, by omega, h3.1, h3.2, fun j hj1 hj2 hjv hjb => ?_⟩
    have := h4 j hj1 hj2
    rw [break_pred_false_iff] at this
    exact this ⟨hjv, hjb⟩
  · rintro ⟨h1, h2, h3, h4, h5⟩
    refine ⟨h1, by omega, ?_, fun j hj1 hj2 => ?_⟩
    · rw [break_pred_true_iff]
      exact ⟨h3, h4⟩
    · rw [break_pred_false_iff]
      rintro ⟨hjv, hjb⟩
      exact h5 j hj1 hj2 hjv hjb

/-- Claim C2: if at least one validation is performed
(`1 ≤ val_interval ≤ epochs`), the parameters held in `best_params`
when the loop finishes are the deep-copied state dict of the validated
epoch with the strictly smallest `val_mse` among all processed
validated epochs — the earliest such epoch on ties (strictly smaller
than every earlier validated epoch's value, no larger than every later
one's) — and `best_val_epoch` records that epoch. -/
theorem best_checkpoint_spec [LinearOrder α] (cfg : LoopCfg α P M)
    (hvi : 1 ≤ cfg.val_interval)
    (hval : cfg.val_interval ≤ cfg.epochs) :
    ∃ e, 1 ≤ e ∧ e ≤ lastEpoch cfg ∧ validAt cfg e ∧
      (runLoop cfg).1.best_params = some (cfg.params e) ∧
      (runLoop cfg).1.best_val_epoch = (e : Int) ∧
      (∀ j, 1 ≤ j → j ≤ lastEpoch cfg → validAt cfg j →
        cfg.val e ≤ cfg.val j) ∧
      (∀ j, 1 ≤ j → j < e → validAt cfg j → cfg.val e < cfg.val j) := by
  have hle := val_interval_le_lastEpoch cfg hvi hval
  rcases bestState_spec cfg (lastEpoch cfg) with
    ⟨hnone, -⟩ | ⟨e, he1, he2, hev, hstate, hmin, hstrict⟩
  · exact absurd (Nat.mod_self cfg.val_interval)
      (hnone cfg.val_interval hvi hle)
  · refine ⟨e, he1, he2, hev, ?_, ?_, hmin, hstrict⟩
    · rw [runLoop_fst, hstate]
    · rw [runLoop_fst, hstate]

/-- Claim C10: the best-run bookkeeping is updated only at validated
epochs, so after the loop `best_params` is an actual parameter snapshot
precisely when at least one validation ran, i.e. when
`epochs ≥ val_interval`; and in that case `best_params`,
`best_val_metrics` and `best_val_epoch` all hold the values of an
actual validated epoch, never the `None`/`-1` initial sentinels. -/
theorem best_params_none_iff [LinearOrder α] (cfg : LoopCfg α P M)
    (hvi : 1 ≤ cfg.val_interval) :
    ((runLoop cfg).1.best_params ≠ none ↔
      cfg.val_interval ≤ cfg.epochs) ∧
    (cfg.val_interval ≤ cfg.epochs →
      ∃ e, 1 ≤ e ∧ validAt cfg e ∧
        (runLoop cfg).1.best_params = some (cfg.params e) ∧
        (runLoop cfg).1.best_val_metrics = some (cfg.metrics e) ∧
        (runLoop cfg).1.best_val_epoch = (e : Int)) := by
  have hmain : cfg.val_interval ≤ cfg.epochs →
      ∃ e, 1 ≤ e ∧ validAt cfg e ∧
        (runLoop cfg).1.best_params = some (cfg.params e) ∧
        (runLoop cfg).1.best_val_metrics = some (cfg.metrics e) ∧
        (runLoop cfg).1.best_val_epoch = (e : Int) := by
    intro hval
    have hle := val_interval_le_lastEpoch cfg hvi hval
    rcases bestState_spec cfg (lastEpoch cfg) with
      ⟨hnone, -⟩ | ⟨e, he1, he2, hev, hstate, -, -⟩
    · exact absurd (Nat.mod_self cfg.val_interval)
        (hnone cfg.val_interval hvi hle)
    · exact ⟨e, he1, hev, by rw [runLoop_fst, hstate],
        by rw [runLoop_fst, hstate], by rw [runLoop_fst, hstate]⟩
  refine ⟨⟨?_, fun hval => ?_⟩, hmain⟩
  · intro hne
    by_contra hgt
    rcases bestState_spec cfg (lastEpoch cfg) with
      ⟨-, hstate⟩ | ⟨e, he1, he2, hev, -, -, -⟩
    · rw [runLoop_fst, hstate] at hne
      exact hne rfl
    · have hdvd := Nat.le_of_dvd (by omega)
        (Nat.dvd_of_mod_eq_zero hev)
      have := lastEpoch_le cfg
      omega
  · obtain ⟨e, -, -, hbp, -, -⟩ := hmain hval
    rw [hbp]
    exact Option.some_ne_none _

/-!
## Dictionary lemmas for `get_config`
-/

/-- Lookup in a cons cell, unfolded. -/
theorem lookupKey_cons (k0 : String) (v0 : Value) (d : Dict)
    (k : String) :
    lookupKey ((k0, v0) :: d) k =
      if k0 = k then some v0 else lookupKey d k := rfl

/-- Keys of a cons cell, unfolded. -/
theorem dictKeys_cons (k0 : String) (v0 : Value) (d : Dict) :
    dictKeys ((k0, v0) :: d) = k0 :: dictKeys d := rfl

/-- Lookup after replacing the value at `k` in place. -/
theorem lookupKey_map_set (k k' : String) (v : Value) (d : Dict) :
    lookupKey (d.map (fun p => if p.1 = k then (k, v) else p)) k' =
      if k' = k then (if k ∈ dictKeys d then some v else none)
      else lookupKey d k' := by
  induction d with
  | nil => simp [lookupKey, dictKeys]
  | cons p rest ih =>
      obtain ⟨k0, v0⟩ := p
      rw [List.map_cons, dictKeys_cons]
      by_cases h0 : k0 = k
      · rw [show (if (k0, v0).1 = k then (k, v) else (k0, v0))
            = (k, v) from if_pos h0]
        rw [lookupKey_cons, lookupKey_cons]
        by_cases h1 : k' = k
        · have hm : k ∈ k0 :: dictKeys rest := by
            rw [h0]
            exact List.mem_cons_self _ _
          rw [if_pos h1.symm, if_pos h1, if_pos hm]
        · have hk : ¬ (k = k') := fun hh => h1 hh.symm
          have hk0 : ¬ (k0 = k') := fun hh => h1 (hh.symm.trans h0)
          rw [if_neg hk, if_neg h1, ih, if_neg h1, if_neg hk0]
      · rw [show (if (k0, v0).1 = k then (k, v) else (k0, v0))
            = (k0, v0) from if_neg h0]
        rw [lookupKey_cons, lookupKey_cons]
        by_cases h2 : k0 = k'
        · have hk : ¬ (k' = k) := fun hh => h0 (h2.trans hh)
          rw [if_pos h2, if_neg hk, if_pos h2]
        · rw [if_neg h2, if_neg h2, ih]
          by_cases h1 : k' = k
          · have h0' : ¬ (k = k0) := fun hh => h0 hh.symm
            rw [if_pos h1, if_pos h1]
            have hmem : (k ∈ k0 :: dictKeys rest) ↔ (k ∈ dictKeys rest) := by
              simp [List.mem_cons, h0']
            by_cases hm : k ∈ dictKeys rest
            · rw [if_pos hm, if_pos (hmem.mpr hm)]
            · rw [if_neg hm, if_neg (fun hh => hm (hmem.mp hh))]
          · rw [if_neg h1, if_neg h1]

/-- Lookup distributes over append, left side first. -/
theorem lookupKey_append (d1 d2 : Dict) (k : String) :
    lookupKey (d1 ++ d2) k =
      match lookupKey d1 k with
      | some v => some v
      | none => lookupKey d2 k := by
  induction d1 with
  | nil => simp [lookupKey]
  | cons p rest ih =>
      obtain ⟨k0, v0⟩ := p
      by_cases h : k0 = k
      · simp [lookupKey, h]
      · simp only [List.cons_append, lookupKey, if_neg h]
        exact ih

/-- A key outside the key list has no value. -/
theorem lookupKey_eq_none_iff (d : Dict) (k : String) :
    lookupKey d k = none ↔ k ∉ dictKeys d := by
  induction d with
  | nil => simp [lookupKey, dictKeys]
  | cons p rest ih =>
      obtain ⟨k0, v0⟩ := p
      have hkeys : dictKeys ((k0, v0) :: rest) = k0 :: dictKeys rest := rfl
      rw [hkeys]
      by_cases h : k0 = k <;>
        simp_all [lookupKey, List.mem_cons, Ne.symm]

/-- Python `d[k] = v` puts `v` at `k` and leaves every other key
unchanged. -/
theorem lookupKey_setKey (d : Dict) (k k' : String) (v : Value) :
    lookupKey (setKey d k v) k' =
      if k' = k then some v else lookupKey d k' := by
  unfold setKey
  by_cases hmem : k ∈ dictKeys d
  · rw [if_pos hmem, lookupKey_map_set]
    by_cases h1 : k' = k
    · rw [if_pos h1, if_pos hmem, if_pos h1]
    · rw [if_neg h1, if_neg h1]
  · rw [if_neg hmem, lookupKey_append]
    by_cases h1 : k' = k
    · subst h1
      rw [(lookupKey_eq_none_iff d k').mpr hmem]
      simp [lookupKey]
    · rw [if_neg h1]
      cases hl : lookupKey d k' with
      | some v0 => rfl
      | none =>
          simp [lookupKey, Ne.symm h1]

/-- Python `base.update(other)` (for `other` with distinct keys, as a
dict parsed from JSON always has): keys of `other` take the value from
`other`, every other key keeps its value from `base`. -/
theorem lookupKey_dictUpdate (other : Dict)
    (hnd : (dictKeys other).Nodup) :
    ∀ (base : Dict) (k : String),
      lookupKey (dictUpdate base other) k =
        match lookupKey other k with
        | some v => some v
        | none => lookupKey base k := by
  induction other with
  | nil => intro base k; simp [dictUpdate, lookupKey]
  | cons p rest ih =>
      intro base k
      obtain ⟨k0, v0⟩ := p
      have hk0 : k0 ∉ dictKeys rest :=
        (List.nodup_cons.mp hnd).1
      have hrest : (dictKeys rest).Nodup :=
        (List.nodup_cons.mp hnd).2
      have hstep : dictUpdate base ((k0, v0) :: rest) =
          dictUpdate (setKey base k0 v0) rest := rfl
      have hcons : lookupKey ((k0, v0) :: rest) k =
          if k0 = k then some v0 else lookupKey rest k := rfl
      rw [hstep, ih hrest (setKey base k0 v0) k, hcons]
      by_cases h : k = k0
      · subst h
        rw [(lookupKey_eq_none_iff rest k).mpr hk0]
        rw [lookupKey_setKey, if_pos rfl, if_pos rfl]
      · rw [lookupKey_setKey, if_neg h, if_neg (Ne.symm h)]

/-- When every key of the file config is a known option, `get_config`
runs the assert block on the merged configuration. -/
theorem get_config_eq_asserts (optimizers losses gnnLayers : List String)
    (args : Dict) (fileCfg : Option Dict)
    (hkeys : ∀ f ∈ fileCfg, ∀ k ∈ dictKeys f, k ∈ dictKeys args) :
    get_config optimizers losses gnnLayers args fileCfg =
      configAsserts optimizers losses gnnLayers
        (mergedConfig args fileCfg) := by
  cases fileCfg with
  | none => rfl
  | some file =>
      have hempty : (unknownOptions args file).isEmpty = true := by
        rw [List.isEmpty_iff]
        unfold unknownOptions
        rw [List.filter_eq_nil_iff]
        intro k hk
        simp only [decide_not, Bool.not_eq_true', decide_eq_false_iff_not,
          Decidable.not_not]
        exact hkeys file rfl k hk
      simp [get_config, hempty, mergedConfig]

/-- Successful runs of the assert block return the configuration it was
given, with all six checks true. -/
theorem configAsserts_ok (optimizers losses gnnLayers : List String)
    (c cfg : Dict)
    (h : configAsserts optimizers losses gnnLayers c = .ok cfg) :
    cfg = c ∧ modelOK c = true ∧ optimizerOK optimizers c = true ∧
      lossOK losses c = true ∧ gnnTypeOK gnnLayers c = true ∧
      initPointsOK c = true ∧ plotPredOK c = true := by
  unfold configAsserts at h
  split_ifs at h with h1 h2 h3 h4 h5 h6
  · cases h
    simp only [Bool.not_eq_true', Bool.not_eq_false] at h1 h2 h3 h4 h5 h6
    exact ⟨rfl, h1, h2, h3, h4, h5, h6⟩

/-- The assert block errors exactly when one of its six checks fails. -/
theorem configAsserts_error_iff (optimizers losses gnnLayers : List String)
    (c : Dict) :
    isError (configAsserts optimizers losses gnnLayers c) = true ↔
      ¬ (modelOK c = true ∧ optimizerOK optimizers c = true ∧
         lossOK losses c = true ∧ gnnTypeOK gnnLayers c = true ∧
         initPointsOK c = true ∧ plotPredOK c = true) := by
  by_cases h1 : modelOK c = true <;>
    by_cases h2 : optimizerOK optimizers c = true <;>
      by_cases h3 : lossOK losses c = true <;>
        by_cases h4 : gnnTypeOK gnnLayers c = true <;>
          by_cases h5 : initPointsOK c = true <;>
            by_cases h6 : plotPredOK c = true <;>
              simp [configAsserts, isError, h1, h2, h3, h4, h5, h6]

/-- Claim C3: with the two numeric-bound checks passing, `get_config`
(on a file whose keys are all known) raises exactly when the merged
configuration's `model`, `optimizer`, `loss` or `gnn_type` is not among
the corresponding known names. -/
theorem get_config_unknown_name_iff (optimizers losses gnnLayers : List String)
    (args : Dict) (fileCfg : Option Dict)
    (hkeys : ∀ f ∈ fileCfg, ∀ k ∈ dictKeys f, k ∈ dictKeys args)
    (hinit : initPointsOK (mergedConfig args fileCfg) = true)
    (hplot : plotPredOK (mergedConfig args fileCfg) = true) :
    isError (get_config optimizers losses gnnLayers args fileCfg) = true ↔
      ¬ (modelOK (mergedConfig args fileCfg) = true ∧
         optimizerOK optimizers (mergedConfig args fileCfg) = true ∧
         lossOK losses (mergedConfig args fileCfg) = true ∧
         gnnTypeOK gnnLayers (mergedConfig args fileCfg) = true) := by
  rw [get_config_eq_asserts optimizers losses gnnLayers args fileCfg hkeys,
    configAsserts_error_iff]
  constructor
  · intro h hc
    exact h ⟨hc.1, hc.2.1, hc.2.2.1, hc.2.2.2, hinit, hplot⟩
  · intro h hc
    exact h ⟨hc.1, hc.2.1, hc.2.2.1, hc.2.2.2.1⟩

/-- Claim C4: when a config file is given, `get_config` raises (with
the message naming each unknown key on its own line) exactly when the
file holds a key unknown to the argparse options; with no unknown key
it proceeds to the assert block on the merged configuration. The keys
listed are exactly the file keys that are not argparse option names. -/
theorem get_config_unknown_key_check (optimizers losses gnnLayers : List String)
    (args file : Dict) :
    (unknownOptions args file ≠ [] →
      get_config optimizers losses gnnLayers args (some file) =
        .error (unknownError (unknownOptions args file))) ∧
    (unknownOptions args file = [] →
      get_config optimizers losses gnnLayers args (some file) =
        configAsserts optimizers losses gnnLayers (dictUpdate args file)) ∧
    (∀ k, k ∈ unknownOptions args file ↔
      (k ∈ dictKeys file ∧ k ∉ dictKeys args)) := by
  refine ⟨fun hne => ?_, fun he => ?_, fun k => ?_⟩
  · have hbool : ¬ ((unknownOptions args file).isEmpty = true) := by
      rw [List.isEmpty_iff]
      exact hne
    show (if (unknownOptions args file).isEmpty = true then
        configAsserts optimizers losses gnnLayers (dictUpdate args file)
      else
        Except.error (unknownError (unknownOptions args file))) =
      Except.error (unknownError (unknownOptions args file))
    rw [if_neg hbool]
  · have hbool : (unknownOptions args file).isEmpty = true := by
      rw [List.isEmpty_iff]
      exact he
    show (if (unknownOptions args file).isEmpty = true then
        configAsserts optimizers losses gnnLayers (dictUpdate args file)
      else
        Except.error (unknownError (unknownOptions args file))) =
      configAsserts optimizers losses gnnLayers (dictUpdate args file)
    rw [if_pos hbool]
  · unfold unknownOptions
    simp [List.mem_filter]

/-- The assert block raises whenever the init-points check fails. -/
theorem configAsserts_error_of_initPoints
    (optimizers losses gnnLayers : List String) (c : Dict)
    (h : initPointsOK c = false) :
    isError (configAsserts optimizers losses gnnLayers c) = true := by
  rw [configAsserts_error_iff]
  rintro ⟨-, -, -, -, h5, -⟩
  rw [h] at h5
  cases h5

/-- The assert block raises whenever the plot-count check fails. -/
theorem configAsserts_error_of_plotPred
    (optimizers losses gnnLayers : List String) (c : Dict)
    (h : plotPredOK c = false) :
    isError (configAsserts optimizers losses gnnLayers c) = true := by
  rw [configAsserts_error_iff]
  rintro ⟨-, -, -, -, -, h6⟩
  rw [h] at h6
  cases h6

/-- Claim C5: `get_config` raises whenever the merged configuration has
`init_points <= 0` and whenever it has `plot_pred > batch_size`; with
`init_points > 0` and `plot_pred <= batch_size` the two numeric-bound
checks pass. -/
theorem get_config_numeric_bounds (optimizers losses gnnLayers : List String)
    (args : Dict) (fileCfg : Option Dict)
    (hkeys : ∀ f ∈ fileCfg, ∀ k ∈ dictKeys f, k ∈ dictKeys args) :
    (∀ n : Int,
      lookupKey (mergedConfig args fileCfg) "init_points" =
        some (.vInt n) → n ≤ 0 →
      isError (get_config optimizers losses gnnLayers args fileCfg)
        = true) ∧
    (∀ p b : Int,
      lookupKey (mergedConfig args fileCfg) "plot_pred" =
        some (.vInt p) →
      lookupKey (mergedConfig args fileCfg) "batch_size" =
        some (.vInt b) → b < p →
      isError (get_config optimizers losses gnnLayers args fileCfg)
        = true) ∧
    (∀ n : Int,
      lookupKey (mergedConfig args fileCfg) "init_points" =
        some (.vInt n) → 0 < n →
      initPointsOK (mergedConfig args fileCfg) = true) ∧
    (∀ p b : Int,
      lookupKey (mergedConfig args fileCfg) "plot_pred" =
        some (.vInt p) →
      lookupKey (mergedConfig args fileCfg) "batch_size" =
        some (.vInt b) → p ≤ b →
      plotPredOK (mergedConfig args fileCfg) = true) := by
  rw [get_config_eq_asserts optimizers losses gnnLayers args fileCfg hkeys]
  refine ⟨fun n hl hn => ?_, fun p b hp hb hlt => ?_,
    fun n hl hn => ?_, fun p b hp hb hle => ?_⟩
  · apply configAsserts_error_of_initPoints
    unfold initPointsOK
    rw [hl]
    simp only [decide_eq_false_iff_not]
    omega
  · apply configAsserts_error_of_plotPred
    unfold plotPredOK
    rw [hp, hb]
    simp only [pyLe, Option.getD_some, decide_eq_false_iff_not]
    omega
  · unfold initPointsOK
    rw [hl]
    exact decide_eq_true hn
  · unfold plotPredOK
    rw [hp, hb]
    simp only [pyLe, Option.getD_some]
    exact decide_eq_true hle

/-- Claim C9: every configuration `get_config` returns is the merged
(file-over-CLI) configuration and satisfies all six validation
predicates, because the assert block runs on the merged dict. -/
theorem get_config_ok_invariant (optimizers losses gnnLayers : List String)
    (args : Dict) (fileCfg : Option Dict) (cfg : Dict)
    (h : get_config optimizers losses gnnLayers args fileCfg = .ok cfg) :
    cfg = mergedConfig args fileCfg ∧ modelOK cfg = true ∧
      optimizerOK optimizers cfg = true ∧ lossOK losses cfg = true ∧
      gnnTypeOK gnnLayers cfg = true ∧ initPointsOK cfg = true ∧
      plotPredOK cfg = true := by
  cases fileCfg with
  | none =>
      obtain ⟨rfl, hrest⟩ := configAsserts_ok optimizers losses gnnLayers args cfg h
      exact ⟨rfl, hrest⟩
  | some file =>
      by_cases hu : (unknownOptions args file).isEmpty = true
      · have heq : get_config optimizers losses gnnLayers args (some file) =
            configAsserts optimizers losses gnnLayers (dictUpdate args file) := by
          show (if (unknownOptions args file).isEmpty = true then
              configAsserts optimizers losses gnnLayers (dictUpdate args file)
            else
              Except.error (unknownError (unknownOptions args file))) = _
          rw [if_pos hu]
        rw [heq] at h
        obtain ⟨rfl, hrest⟩ :=
          configAsserts_ok optimizers losses gnnLayers (dictUpdate args file) cfg h
        exact ⟨rfl, hrest⟩
      · have heq : get_config optimizers losses gnnLayers args (some file) =
            .error (unknownError (unknownOptions args file)) := by
          show (if (unknownOptions args file).isEmpty = true then
              configAsserts optimizers losses gnnLayers (dictUpdate args file)
            else
              Except.error (unknownError (unknownOptions args file))) = _
          rw [if_neg hu]
        rw [heq] at h
        cases h

/-- Claim C6: when a config file with (distinct) all-known keys is
given, every key present in the file takes the file's value in the
merged configuration and every other key keeps the command-line value;
any configuration `get_config` accepts is exactly that merged dict. -/
theorem config_file_overrides (optimizers losses gnnLayers : List String)
    (args file : Dict)
    (hnd : (dictKeys file).Nodup)
    (hkeys : ∀ k ∈ dictKeys file, k ∈ dictKeys args) :
    (∀ k, lookupKey (dictUpdate args file) k =
      match lookupKey file k with
      | some v => some v
      | none => lookupKey args k) ∧
    (∀ cfg, get_config optimizers losses gnnLayers args (some file) =
      .ok cfg → cfg = dictUpdate args file) := by
  refine ⟨fun k => lookupKey_dictUpdate file hnd args k, fun cfg h => ?_⟩
  exact (get_config_ok_invariant optimizers losses gnnLayers args
    (some file) cfg h).1

/-- Claim C7: the `MODELS` registry has exactly the three entries
`gru`, `gru_node`, `gru_graph`, and every configuration accepted by
`get_config` selects exactly one model class from it. -/
theorem model_registry_three_variants (optimizers losses gnnLayers : List String)
    (args : Dict) (fileCfg : Option Dict) (cfg : Dict)
    (h : get_config optimizers losses gnnLayers args fileCfg = .ok cfg) :
    MODELS.map Prod.fst = ["gru", "gru_node", "gru_graph"] ∧
    ∃! m : ModelClass, chooseModel cfg = some m := by
  obtain ⟨-, hmodel, -⟩ :=
    get_config_ok_invariant optimizers losses gnnLayers args fileCfg cfg h
  refine ⟨rfl, ?_⟩
  unfold modelOK strKnown at hmodel
  cases hl : lookupKey cfg "model" with
  | none => rw [hl] at hmodel; cases hmodel
  | some v =>
      rw [hl] at hmodel
      cases v with
      | vInt n => cases hmodel
      | vFloat q => cases hmodel
      | vNone => cases hmodel
      | vStr s =>
          have hc : MODEL_NAMES.contains s = true := hmodel
          have hs : s = "gru" ∨ s = "gru_node" ∨ s = "gru_graph" := by
            simpa [ MODEL_NAMES, MODELS] using hc
          unfold chooseModel
          rw [hl]
          rcases hs with rfl | rfl | rfl
          · refine ⟨.GRUModel, rfl, fun y hy => ?_⟩
            simp [ MODELS, List.lookup] at hy
            exact hy.symm
          · refine ⟨.GRUNodeModel, rfl, fun y hy => ?_⟩
            simp [ MODELS, List.lookup] at hy
            exact hy.symm
          · refine ⟨.GRUGraphModel, rfl, fun y hy => ?_⟩
            simp [ MODELS, List.lookup] at hy
            exact hy.symm

/-- No event of the training loop is a checkpoint save. -/
theorem loopEvents_no_save [LinearOrder α] (cfg : LoopCfg α P M) :
    ∀ e ∈ loopEvents cfg, isSaveCheckpoint e = false := by
  intro e he
  simp only [loopEvents, List.mem_flatMap, List.mem_cons] at he
  obtain ⟨i, -, he⟩ := he
  rcases he with rfl | he
  · rfl
  · by_cases hv : i % cfg.val_interval = 0
    · rw [if_pos hv] at he
      simp only [List.mem_singleton] at he
      rw [he]
      rfl
    · rw [if_neg hv] at he
      cases he

/-- No event after the checkpoint save is another save or a training
step. -/
theorem postSaveEvents_no_save_no_train [LinearOrder α]
    (cfg : LoopCfg α P M) (runDir : String) (plotPred : Nat)
    (savePdfFlag : Bool) :
    ∀ e ∈ (Event.loadState (runLoop cfg).1.best_params ::
      ((List.range plotPred).flatMap (fun i =>
        (if savePdfFlag then
          [Event.savePdfFig
            (pathJoin runDir ("val_pred_" ++ toString i ++ ".pdf"))]
        else []) ++ [Event.logImage i]) ++
       [Event.summaryUpdate])),
      isSaveCheckpoint e = false ∧ isTrain e = false := by
  intro e he
  simp only [List.mem_cons, List.mem_append, List.mem_flatMap,
    List.mem_singleton] at he
  rcases he with rfl | ⟨i, -, he⟩ | rfl | he
  · exact ⟨rfl, rfl⟩
  · rcases he with he | rfl | he
    · by_cases hs : savePdfFlag
      · rw [if_pos hs] at he
        simp only [List.mem_singleton] at he
        rw [he]
        exact ⟨rfl, rfl⟩
      · rw [if_neg hs] at he
        cases he
    · exact ⟨rfl, rfl⟩
    · cases he
  · exact ⟨rfl, rfl⟩
  · cases he

/-- Claim C8: the checkpoint is written exactly once, to
`os.path.join(wandb.run.dir, constants.PARAM_FILE_NAME)`, and the write
comes after every event of the training loop. -/
theorem checkpoint_saved_once_after_loop [LinearOrder α]
    (cfg : LoopCfg α P M) (runDir paramFileName : String)
    (plotPred : Nat) (savePdfFlag : Bool) :
    (mainEvents cfg runDir paramFileName plotPred savePdfFlag).filter
        isSaveCheckpoint =
      [Event.saveCheckpoint (pathJoin runDir paramFileName)
        (runLoop cfg).1.best_params] ∧
    ∃ post,
      mainEvents cfg runDir paramFileName plotPred savePdfFlag =
        loopEvents cfg ++
          Event.saveCheckpoint (pathJoin runDir paramFileName)
            (runLoop cfg).1.best_params :: post ∧
      (∀ e ∈ loopEvents cfg, isSaveCheckpoint e = false) ∧
      (∀ e ∈ post, isSaveCheckpoint e = false ∧ isTrain e = false) := by
  have hloop : (loopEvents cfg).filter (@isSaveCheckpoint P) = [] := by
    rw [List.filter_eq_nil_iff]
    intro a ha
    rw [loopEvents_no_save cfg a ha]
    exact Bool.false_ne_true
  have hrest := postSaveEvents_no_save_no_train
    cfg runDir plotPred savePdfFlag
  constructor
  · unfold mainEvents
    rw [List.filter_append, hloop, List.nil_append,
      List.filter_cons_of_pos rfl]
    rw [List.filter_eq_nil_iff.mpr (fun a ha => ?_)]
    rw [(hrest a ha).1]
    exact Bool.false_ne_true
  · refine ⟨_, rfl, loopEvents_no_save cfg, fun e he => ?_⟩
    exact hrest e he

/-- Witness for the early-stopping characterization at a concrete run:
with patience 0 the loop breaks at epoch 1. -/
theorem early_stopping_break_iff_witness : (runLoop cfgBreak).2 = some 1 :=
  (early_stopping_break_iff cfgBreak (by decide) 1).mpr
    ⟨by decide, by decide, by decide,
     (brkCond_iff_int cfgBreak 1 (by decide)).mpr (by decide),
     fun j h1 h2 => absurd h2 (Nat.not_lt.mpr h1)⟩

/-- Witness for the best-checkpoint characterization at a concrete
run. -/
theorem best_checkpoint_spec_witness :
    ∃ e, 1 ≤ e ∧ e ≤ lastEpoch cfgRun ∧ validAt cfgRun e ∧
      (runLoop cfgRun).1.best_params = some (cfgRun.params e) ∧
      (runLoop cfgRun).1.best_val_epoch = (e : Int) ∧
      (∀ j, 1 ≤ j → j ≤ lastEpoch cfgRun → validAt cfgRun j →
        cfgRun.val e ≤ cfgRun.val j) ∧
      (∀ j, 1 ≤ j → j < e → validAt cfgRun j →
        cfgRun.val e < cfgRun.val j) :=
  best_checkpoint_spec cfgRun (by decide) (by decide)

/-- Witness for the `best_params` non-`None` characterization at a
concrete run. -/
theorem best_params_none_iff_witness :
    ((runLoop cfgRun).1.best_params ≠ none ↔
      cfgRun.val_interval ≤ cfgRun.epochs) ∧
    (cfgRun.val_interval ≤ cfgRun.epochs →
      ∃ e, 1 ≤ e ∧ validAt cfgRun e ∧
        (runLoop cfgRun).1.best_params = some (cfgRun.params e) ∧
        (runLoop cfgRun).1.best_val_metrics = some (cfgRun.metrics e) ∧
        (runLoop cfgRun).1.best_val_epoch = (e : Int)) :=
  best_params_none_iff cfgRun (by decide)

/-- Witness for the unknown-name check at the default configuration
(no config file). -/
theorem get_config_unknown_name_iff_witness :
    isError (get_config ["adam"] ["mse"] ["graphconv"] defaultArgs none)
        = true ↔
      ¬ (modelOK (mergedConfig defaultArgs none) = true ∧
         optimizerOK ["adam"] (mergedConfig defaultArgs none) = true ∧
         lossOK ["mse"] (mergedConfig defaultArgs none) = true ∧
         gnnTypeOK ["graphconv"] (mergedConfig defaultArgs none)
           = true) :=
  get_config_unknown_name_iff ["adam"] ["mse"] ["graphconv"] defaultArgs
    none (fun f hf => nomatch hf) rfl rfl

/-- Witness for the unknown-key check: a config file with the key
`typo` is rejected with the message naming it. -/
theorem get_config_unknown_key_check_witness :
    get_config ["adam"] ["mse"] ["graphconv"] defaultArgs
        (some [("typo", .vInt 1)]) =
      .error (unknownError (unknownOptions defaultArgs
        [("typo", .vInt 1)])) :=
  (get_config_unknown_key_check ["adam"] ["mse"] ["graphconv"]
    defaultArgs [("typo", .vInt 1)]).1 (by decide)

/-- Witness for the numeric-bound checks: `init_points = -1` on the
command line makes `get_config` raise. -/
theorem get_config_numeric_bounds_witness :
    isError (get_config ["adam"] ["mse"] ["graphconv"]
      (setKey defaultArgs "init_points" (.vInt (-1))) none) = true :=
  (get_config_numeric_bounds ["adam"] ["mse"] ["graphconv"]
    (setKey defaultArgs "init_points" (.vInt (-1))) none
    (fun f hf => nomatch hf)).1 (-1) (by decide) (by decide)

/-- Witness for file-over-CLI override with a file setting `model` to
`gru`. -/
theorem config_file_overrides_witness :
    (∀ k, lookupKey (dictUpdate defaultArgs [("model", .vStr "gru")]) k =
      match lookupKey [("model", .vStr "gru")] k with
      | some v => some v
      | none => lookupKey defaultArgs k) ∧
    (∀ cfg, get_config ["adam"] ["mse"] ["graphconv"] defaultArgs
      (some [("model", .vStr "gru")]) = .ok cfg →
      cfg = dictUpdate defaultArgs [("model", .vStr "gru")]) :=
  config_file_overrides ["adam"] ["mse"] ["graphconv"] defaultArgs
    [("model", .vStr "gru")] (by decide) (by decide)

/-- Witness for the model registry at the accepted default
configuration. -/
theorem model_registry_three_variants_witness :
    MODELS.map Prod.fst = ["gru", "gru_node", "gru_graph"] ∧
    ∃! m : ModelClass, chooseModel defaultArgs = some m :=
  model_registry_three_variants ["adam"] ["mse"] ["graphconv"]
    defaultArgs none defaultArgs rfl

/-- Witness for the `get_config` post-invariant at the accepted default
configuration. -/
theorem get_config_ok_invariant_witness :
    defaultArgs = mergedConfig defaultArgs none ∧
      modelOK defaultArgs = true ∧
      optimizerOK ["adam"] defaultArgs = true ∧
      lossOK ["mse"] defaultArgs = true ∧
      gnnTypeOK ["graphconv"] defaultArgs = true ∧
      initPointsOK defaultArgs = true ∧
      plotPredOK defaultArgs = true :=
  get_config_ok_invariant ["adam"] ["mse"] ["graphconv"] defaultArgs
    none defaultArgs rfl

/-- Witness for the checkpoint-save trace at a concrete run. -/
theorem checkpoint_saved_once_after_loop_witness :
    (mainEvents cfgRun "run_dir" "params.pt" 1 true).filter
        isSaveCheckpoint =
      [Event.saveCheckpoint (pathJoin "run_dir" "params.pt")
        (runLoop cfgRun).1.best_params] ∧
    ∃ post,
      mainEvents cfgRun "run_dir" "params.pt" 1 true =
        loopEvents cfgRun ++
          Event.saveCheckpoint (pathJoin "run_dir" "params.pt")
            (runLoop cfgRun).1.best_params :: post ∧
      (∀ e ∈ loopEvents cfgRun, isSaveCheckpoint e = false) ∧
      (∀ e ∈ post, isSaveCheckpoint e = false ∧ isTrain e = false) :=
  checkpoint_saved_once_after_loop cfgRun "run_dir" "params.pt" 1 true
